import Mathlib

/-!
Verification of the reflector-subscription contract (src/src/lib.rs).

The contract is embedded shallowly: machine `u64` quantities become `Nat`
(every subtraction in the source is guarded, and claims add the clock
hypothesis `updated ≤ now` where the source subtracts timestamps), the one
`as u32` cast in `calc_ledgers_to_live` is modelled as reduction modulo
2^32, and an unguarded division by zero is modelled as a distinct
`Failure.divByZeroTrap` outcome.  External collaborators (authorization
oracle, token ledger, event bus, expiring store) are modelled as explicit
state: token-ledger calls and emitted events are appended to logs inside
`ContractState`, so a theorem can speak about exactly which transfers,
burns and events an operation performs.  A failing operation returns
`Except.error` and no successor state, matching the host's
abort-and-roll-back semantics for a panicking contract invocation.
-/

namespace Reflector

/-- Subscription status (types/subscription_status.rs): two states. -/
inductive SubscriptionStatus
  | Active
  | Suspended
deriving DecidableEq

/-- Subscription record (types/subscription.rs); `owner`, `base`, `quote` and
the token are opaque addresses/tickers, modelled as `Nat`; `webhook` is an
opaque byte payload of which only the length matters. -/
structure Subscription where
  owner : Nat
  base : Nat
  quote : Nat
  threshold : Nat
  heartbeat : Nat
  webhook : List Nat
  balance : Nat
  status : SubscriptionStatus
  updated : Nat
deriving DecidableEq

/-- Creation parameters (types/subscription_init_params.rs). -/
structure SubscriptionInitParams where
  owner : Nat
  base : Nat
  quote : Nat
  threshold : Nat
  heartbeat : Nat
  webhook : List Nat
deriving DecidableEq

/-- Contract error codes (types/error.rs). -/
inductive Error
  | AlreadyInitialized
  | NotInitialized
  | Unauthorized
  | SubscriptionNotFound
  | InvalidAmount
  | InvalidHeartbeat
  | InvalidThreshold
  | WebhookTooLong
  | InvalidSubscriptionStatusError
deriving DecidableEq

/-- Outcome of a failing invocation: either a documented contract error or
an unguarded arithmetic trap (division by zero on the host). -/
inductive Failure
  | contractError (e : Error)
  | divByZeroTrap
deriving DecidableEq

/-- Events published by the contract, in emission order. -/
inductive Event
  | triggered (timestamp hash : Nat)
  | created (owner id : Nat) (sub : Subscription)
  | deposited (owner id : Nat) (sub : Subscription) (amount : Nat)
  | charged (owner now id amount : Nat)
  | suspended (owner now id : Nat)
  | cancelled (owner id : Nat)
deriving DecidableEq

/-- Calls made against the external token ledger, in call order. -/
inductive TokenOp
  | transferOp (src dst amount : Nat)
  | burnOp (holder amount : Nat)
deriving DecidableEq

/-- Contract configuration (types/contract_config.rs). -/
structure ContractConfig where
  admin : Nat
  fee : Nat
  token : Nat
deriving DecidableEq

/-- Modelled from the spec: the persistent state kept by the
extensions/env_extensions.rs accessors (absent from src/), i.e. admin
identity, base fee, token reference, the `last_subscription_id` counter and
the keyed subscription store, plus the observable logs of token-ledger
calls, emitted events and retention (ttl) extensions. -/
structure ContractState where
  admin : Option Nat
  fee : Nat
  token : Nat
  last_subscription_id : Nat
  subs : List (Nat × Subscription)
  events : List Event
  tokenOps : List TokenOp
  ttlOps : List (Nat × Nat)
deriving DecidableEq

/-- Per-invocation host environment: ledger timestamp (seconds), the
store's maximum retention horizon, and the contract's own address. -/
structure CallEnv where
  timestampSec : Nat
  maxTTL : Nat
  contractAddr : Nat
deriving DecidableEq

/-- One day in milliseconds (lib.rs line 18). -/
def DAY : Nat := 86400 * 1000

/-- Maximum webhook size in bytes (lib.rs line 20). -/
def MAX_WEBHOOK_SIZE : Nat := 2048

/-- Minimum heartbeat in minutes (lib.rs line 23). -/
def MIN_HEARTBEAT : Nat := 5

/-- 2^32, the modulus of the `as u32` cast and of `u32` arithmetic. -/
def U32MOD : Nat := 4294967296

/-- Modelled from the spec: `Store.get` of the expiring key-value store. -/
def storeGet (l : List (Nat × Subscription)) (id : Nat) : Option Subscription :=
  match l with
  | [] => none
  | p :: rest => if p.1 = id then some p.2 else storeGet rest id

/-- Modelled from the spec: `Store.remove`. -/
def storeRemove (l : List (Nat × Subscription)) (id : Nat) : List (Nat × Subscription) :=
  match l with
  | [] => []
  | p :: rest => if p.1 = id then storeRemove rest id else p :: storeRemove rest id

/-- Modelled from the spec: `Store.set` — the new binding replaces any
previous binding of the same id. -/
def storeSet (l : List (Nat × Subscription)) (id : Nat) (sub : Subscription) :
    List (Nat × Subscription) :=
  (id, sub) :: storeRemove l id

/-- Modelled from the spec: the initialization guard `e.is_initialized()`
of env_extensions.rs — the process-wide state is initialized exactly when
an admin identity has been persisted. -/
def isInitialized (s : ContractState) : Bool :=
  s.admin.isSome

/-- `now(&e)` (lib.rs lines 417-419): seconds normalized to milliseconds. -/
def nowMs (env : CallEnv) : Nat :=
  env.timestampSec * 1000

/-- `calc_fee` (lib.rs lines 421-424): flat stub, returns the configured
base fee irrespective of heartbeat and threshold. -/
def calc_fee (s : ContractState) (heartbeat threshold : Nat) : Nat :=
  s.fee

/-- `calc_ledgers_to_live` (lib.rs lines 426-433).  The day count is cast
`as u32` (reduction mod 2^32); the `u32` product `days * 17280` is likewise
reduced; a zero fee makes the division trap. -/
def calc_ledgers_to_live (env : CallEnv) (fee amount : Nat) : Except Failure Nat :=
  if fee = 0 then Except.error Failure.divByZeroTrap
  else
    let days := ((amount + fee - 1) / fee) % U32MOD
    let ledgers := (days * 17280) % U32MOD
    if ledgers > env.maxTTL then Except.error (Failure.contractError Error.InvalidAmount)
    else Except.ok ledgers

/-- `transfer_tokens` (lib.rs lines 412-415): one ledger transfer call. -/
def transfer_tokens (s : ContractState) (src dst amount : Nat) : ContractState :=
  { s with tokenOps := s.tokenOps ++ [TokenOp.transferOp src dst amount] }

/-- `transfer_tokens_to_current_contract` (lib.rs lines 404-410): transfer
into the contract, then burn `burn_amount` from the contract when it is
positive. -/
def transfer_tokens_to_current_contract (env : CallEnv) (s : ContractState)
    (src amount burn_amount : Nat) : ContractState :=
  let s1 := transfer_tokens s src env.contractAddr amount
  if 0 < burn_amount then
    { s1 with tokenOps := s1.tokenOps ++ [TokenOp.burnOp env.contractAddr burn_amount] }
  else s1

/-- `config` (lib.rs lines 41-51).  The admin's authorization proof is an
external capability assumed to pass.  A second call finds the state
initialized and fails. -/
def config (s : ContractState) (cfg : ContractConfig) : Except Failure ContractState :=
  if isInitialized s then Except.error (Failure.contractError Error.AlreadyInitialized)
  else Except.ok { s with admin := some cfg.admin, fee := cfg.fee, token := cfg.token,
                          last_subscription_id := 0 }

/-- `set_fee` (lib.rs lines 62-65).  `panic_if_not_admin` is modelled from
the spec (env_extensions.rs is absent from src/): it fails with
`Unauthorized` when no admin is stored, and the admin caller's
authorization is assumed to pass.  The new fee is stored with no bounds
checking. -/
def set_fee (s : ContractState) (fee : Nat) : Except Failure ContractState :=
  match s.admin with
  | none => Except.error (Failure.contractError Error.Unauthorized)
  | some _ => Except.ok { s with fee := fee }

/-- Body of the `charge` loop for one resolved subscription
(lib.rs lines 115-149). -/
def chargeSub (env : CallEnv) (s : ContractState) (total id : Nat)
    (sub : Subscription) : ContractState × Nat :=
  let now := nowMs env
  let days := (now - sub.updated) / DAY
  if days = 0 then (s, total)
  else
    let fee := calc_fee s sub.heartbeat sub.threshold
    let charge0 := days * fee
    let chargeAmt := if sub.balance < charge0 then sub.balance else charge0
    let newBalance := sub.balance - chargeAmt
    if newBalance < fee then
      ({ s with
          subs := storeSet s.subs id
            { sub with balance := newBalance, updated := now,
                       status := SubscriptionStatus.Suspended },
          events := s.events ++
            [Event.suspended sub.owner now id,
             Event.charged sub.owner now id chargeAmt] },
       total + chargeAmt)
    else
      ({ s with
          subs := storeSet s.subs id { sub with balance := newBalance, updated := now },
          events := s.events ++ [Event.charged sub.owner now id chargeAmt] },
       total + chargeAmt)

/-- One iteration of the `charge` loop (lib.rs lines 113-151): an id that
does not resolve is skipped silently. -/
def chargeStep (env : CallEnv) (s : ContractState) (total id : Nat) :
    ContractState × Nat :=
  match storeGet s.subs id with
  | none => (s, total)
  | some sub => chargeSub env s total id sub

/-- The `charge` loop over the whole id list, threading state and the
accumulated total. -/
def chargeLoop (env : CallEnv) : ContractState × Nat → List Nat → ContractState × Nat
  | acc, [] => acc
  | acc, id :: rest => chargeLoop env (chargeStep env acc.1 acc.2 id) rest

/-- `charge` (lib.rs lines 109-159): admin-gated; after the loop, burn the
accumulated total from the contract's own balance in one call, or make no
ledger call at all when the total is zero. -/
def charge (env : CallEnv) (s : ContractState) (ids : List Nat) :
    Except Failure ContractState :=
  match s.admin with
  | none => Except.error (Failure.contractError Error.Unauthorized)
  | some _ =>
    let r := chargeLoop env (s, 0) ids
    if r.2 = 0 then Except.ok r.1
    else Except.ok
      { r.1 with tokenOps := r.1.tokenOps ++ [TokenOp.burnOp env.contractAddr r.2] }

/-- `create_subscription` (lib.rs lines 181-234). -/
def create_subscription (env : CallEnv) (s : ContractState)
    (p : SubscriptionInitParams) (amount : Nat) :
    Except Failure ((Nat × Subscription) × ContractState) :=
  if isInitialized s then
    let subscription_fee := calc_fee s p.heartbeat p.threshold
    let init_fee := subscription_fee * 2
    if amount < init_fee then Except.error (Failure.contractError Error.InvalidAmount)
    else if p.heartbeat < MIN_HEARTBEAT then
      Except.error (Failure.contractError Error.InvalidHeartbeat)
    else if p.threshold = 0 ∨ p.threshold > 10000 then
      Except.error (Failure.contractError Error.InvalidThreshold)
    else if p.webhook.length > MAX_WEBHOOK_SIZE then
      Except.error (Failure.contractError Error.WebhookTooLong)
    else
      let s1 := transfer_tokens_to_current_contract env s p.owner amount init_fee
      let subscription_id := s1.last_subscription_id + 1
      let sub : Subscription :=
        { owner := p.owner, base := p.base, quote := p.quote, threshold := p.threshold,
          heartbeat := p.heartbeat, webhook := p.webhook, balance := amount - init_fee,
          status := SubscriptionStatus.Active, updated := nowMs env }
      let s2 := { s1 with subs := storeSet s1.subs subscription_id sub,
                          last_subscription_id := subscription_id }
      match calc_ledgers_to_live env subscription_fee sub.balance with
      | Except.error f => Except.error f
      | Except.ok ledgers =>
        Except.ok ((subscription_id, sub),
          { s2 with ttlOps := s2.ttlOps ++ [(subscription_id, ledgers)],
                    events := s2.events ++ [Event.created sub.owner subscription_id sub] })
  else Except.error (Failure.contractError Error.NotInitialized)

/-- Tail of `deposit` after the status match (lib.rs lines 276-285):
transfer, optional burn, credit the balance, persist, extend retention,
emit the event. -/
def depositCore (env : CallEnv) (s : ContractState) (sender id amount : Nat)
    (sub : Subscription) (subscription_fee burn_amount : Nat) :
    Except Failure ContractState :=
  let s1 := transfer_tokens_to_current_contract env s sender amount burn_amount
  let sub2 := { sub with balance := sub.balance + (amount - burn_amount) }
  let s2 := { s1 with subs := storeSet s1.subs id sub2 }
  match calc_ledgers_to_live env subscription_fee sub2.balance with
  | Except.error f => Except.error f
  | Except.ok ledgers =>
    Except.ok { s2 with ttlOps := s2.ttlOps ++ [(id, ledgers)],
                        events := s2.events ++
                          [Event.deposited sub2.owner id sub2 amount] }

/-- `deposit` (lib.rs lines 250-286).  A suspended record demands
`amount >= fee`, burns the fee and reactivates; an active record is
credited in full with no burn.  The record's `updated` field is not
touched. -/
def deposit (env : CallEnv) (s : ContractState) (sender subscription_id amount : Nat) :
    Except Failure ContractState :=
  if isInitialized s then
    if amount = 0 then Except.error (Failure.contractError Error.InvalidAmount)
    else
      match storeGet s.subs subscription_id with
      | none => Except.error (Failure.contractError Error.SubscriptionNotFound)
      | some sub =>
        let subscription_fee := calc_fee s sub.heartbeat sub.threshold
        match sub.status with
        | SubscriptionStatus.Suspended =>
          if amount < subscription_fee then
            Except.error (Failure.contractError Error.InvalidAmount)
          else
            depositCore env s sender subscription_id amount
              { sub with status := SubscriptionStatus.Active }
              subscription_fee subscription_fee
        | SubscriptionStatus.Active =>
          depositCore env s sender subscription_id amount sub subscription_fee 0
  else Except.error (Failure.contractError Error.NotInitialized)

/-- `cancel` (lib.rs lines 298-320): only an active subscription can be
cancelled; the full balance is returned to the owner and the record is
removed. -/
def cancel (env : CallEnv) (s : ContractState) (subscription_id : Nat) :
    Except Failure ContractState :=
  if isInitialized s then
    match storeGet s.subs subscription_id with
    | none => Except.error (Failure.contractError Error.SubscriptionNotFound)
    | some sub =>
      match sub.status with
      | SubscriptionStatus.Active =>
        let s1 := transfer_tokens s env.contractAddr sub.owner sub.balance
        Except.ok { s1 with subs := storeRemove s1.subs subscription_id,
                            events := s1.events ++
                              [Event.cancelled sub.owner subscription_id] }
      | SubscriptionStatus.Suspended =>
        Except.error (Failure.contractError Error.InvalidSubscriptionStatusError)
  else Except.error (Failure.contractError Error.NotInitialized)

/-- `get_subscription` (lib.rs lines 335-339). -/
def get_subscription (s : ContractState) (subscription_id : Nat) :
    Except Failure Subscription :=
  if isInitialized s then
    match storeGet s.subs subscription_id with
    | some sub => Except.ok sub
    | none => Except.error (Failure.contractError Error.SubscriptionNotFound)
  else Except.error (Failure.contractError Error.NotInitialized)

/-- Spec-side: elapsed full days since the record was last updated,
`floor((now - updated) / one_day)`. -/
def specElapsedDays (env : CallEnv) (sub : Subscription) : Nat :=
  (nowMs env - sub.updated) / DAY

/-- Spec-side: the fee charged to a record, `fee(heartbeat, threshold)`. -/
def specFee (s : ContractState) (sub : Subscription) : Nat :=
  calc_fee s sub.heartbeat sub.threshold

/-- Spec-side: the claimed deduction — elapsed days times the fee, capped
at the current balance. -/
def specCharge (env : CallEnv) (s : ContractState) (sub : Subscription) : Nat :=
  min (specElapsedDays env sub * specFee s sub) sub.balance

/-- Spec-side restatement of the per-record behavior of `charge` (claim
C1): a zero-day record is skipped without any mutation; otherwise the
capped deduction is applied, `updated` is set to `now`, the record is
suspended exactly when the remaining balance falls below the fee, and the
suspension event precedes the charge event. -/
def ChargeRecordSpec (env : CallEnv) (s : ContractState) (total id : Nat)
    (sub : Subscription) : Prop :=
  (specElapsedDays env sub = 0 → chargeStep env s total id = (s, total)) ∧
  (specElapsedDays env sub ≠ 0 →
    (chargeStep env s total id).2 = total + specCharge env s sub ∧
    specCharge env s sub ≤ sub.balance ∧
    storeGet (chargeStep env s total id).1.subs id = some
      { sub with balance := sub.balance - specCharge env s sub,
                 updated := nowMs env,
                 status := if sub.balance - specCharge env s sub < specFee s sub
                           then SubscriptionStatus.Suspended else sub.status } ∧
    (chargeStep env s total id).1.events =
      s.events ++
        (if sub.balance - specCharge env s sub < specFee s sub
         then [Event.suspended sub.owner (nowMs env) id,
               Event.charged sub.owner (nowMs env) id (specCharge env s sub)]
         else [Event.charged sub.owner (nowMs env) id (specCharge env s sub)]))

/-- The deduction one loop iteration of `charge` makes against the state it
sees, written directly from the loop body. -/
def recordCharge (env : CallEnv) (s : ContractState) (id : Nat) : Nat :=
  match storeGet s.subs id with
  | none => 0
  | some sub =>
    let days := (nowMs env - sub.updated) / DAY
    if days = 0 then 0
    else
      let charge0 := days * calc_fee s sub.heartbeat sub.threshold
      if sub.balance < charge0 then sub.balance else charge0

/-- Sum of the individual per-record charges of one `charge(ids)` call,
each taken against the state as it stands when that id is processed. -/
def chargeTotal (env : CallEnv) (s : ContractState) : List Nat → Nat
  | [] => 0
  | id :: rest => recordCharge env s id + chargeTotal env (chargeStep env s 0 id).1 rest

/-- Spec-side restatement of the batch-burn behavior of `charge` (claim
C8): a zero batch total makes no token-ledger call, a nonzero total is
destroyed from the contract's own balance in exactly one burn. -/
def ChargeBurnSpec (env : CallEnv) (s : ContractState) (ids : List Nat)
    (s1 : ContractState) : Prop :=
  (chargeTotal env s ids = 0 → s1.tokenOps = s.tokenOps) ∧
  (chargeTotal env s ids ≠ 0 →
    s1.tokenOps = s.tokenOps ++ [TokenOp.burnOp env.contractAddr (chargeTotal env s ids)])

/-- Spec-side restatement of `deposit`'s status handling (claim C3). -/
def DepositSpec (env : CallEnv) (s : ContractState) (sender id amount : Nat)
    (sub : Subscription) : Prop :=
  (sub.status = SubscriptionStatus.Suspended → amount < specFee s sub →
    deposit env s sender id amount = Except.error (Failure.contractError Error.InvalidAmount)) ∧
  (sub.status = SubscriptionStatus.Suspended → specFee s sub ≤ amount →
    ∀ s1, deposit env s sender id amount = Except.ok s1 →
      s1.tokenOps = s.tokenOps ++
        [TokenOp.transferOp sender env.contractAddr amount,
         TokenOp.burnOp env.contractAddr (specFee s sub)] ∧
      storeGet s1.subs id = some
        { sub with status := SubscriptionStatus.Active,
                   balance := sub.balance + (amount - specFee s sub) }) ∧
  (sub.status = SubscriptionStatus.Active →
    ∀ s1, deposit env s sender id amount = Except.ok s1 →
      s1.tokenOps = s.tokenOps ++ [TokenOp.transferOp sender env.contractAddr amount] ∧
      storeGet s1.subs id = some { sub with balance := sub.balance + amount })

/-- Spec-side restatement of the successful-creation postcondition
(claim C4, first part). -/
def CreateResultSpec (env : CallEnv) (s : ContractState) (amount id : Nat)
    (sub : Subscription) (s1 : ContractState) : Prop :=
  sub.balance = amount - 2 * s.fee ∧
  sub.status = SubscriptionStatus.Active ∧
  sub.updated = nowMs env ∧
  id = s.last_subscription_id + 1 ∧
  s1.last_subscription_id = id ∧
  storeGet s1.subs id = some sub

/-- Spec-side restatement of `cancel`'s behavior (claim C6). -/
def CancelSpec (env : CallEnv) (s : ContractState) (id : Nat)
    (sub : Subscription) : Prop :=
  (sub.status = SubscriptionStatus.Suspended →
    cancel env s id =
      Except.error (Failure.contractError Error.InvalidSubscriptionStatusError)) ∧
  (sub.status = SubscriptionStatus.Active →
    cancel env s id = Except.ok
      { s with subs := storeRemove s.subs id,
               tokenOps := s.tokenOps ++
                 [TokenOp.transferOp env.contractAddr sub.owner sub.balance],
               events := s.events ++ [Event.cancelled sub.owner id] } ∧
    ∀ s1, cancel env s id = Except.ok s1 →
      get_subscription s1 id =
        Except.error (Failure.contractError Error.SubscriptionNotFound))

/-- Spec-side restatement of the one-shot `config` behavior (claim C9). -/
def ConfigSpec (s : ContractState) (cfg : ContractConfig) (s1 : ContractState)
    (cfg2 : ContractConfig) : Prop :=
  s1.admin = some cfg.admin ∧ s1.fee = cfg.fee ∧ s1.token = cfg.token ∧
  s1.last_subscription_id = 0 ∧
  config s1 cfg2 = Except.error (Failure.contractError Error.AlreadyInitialized)

/-- The public mutating entry points, for reasoning about call sequences. -/
inductive Op
  | cfgOp (cfg : ContractConfig)
  | feeOp (fee : Nat)
  | chargeOp (ids : List Nat)
  | createOp (p : SubscriptionInitParams) (amount : Nat)
  | depositOp (sender id amount : Nat)
  | cancelOp (id : Nat)

/-- Apply one public mutating call to the state. -/
def stepOp (env : CallEnv) (s : ContractState) : Op → Except Failure ContractState
  | Op.cfgOp cfg => config s cfg
  | Op.feeOp f => set_fee s f
  | Op.chargeOp ids => charge env s ids
  | Op.createOp p amount =>
    match create_subscription env s p amount with
    | Except.ok r => Except.ok r.2
    | Except.error f => Except.error f
  | Op.depositOp sender id amount => deposit env s sender id amount
  | Op.cancelOp id => cancel env s id

/-- States reachable from `s` by sequences of successful public calls,
each call under its own host environment. -/
inductive Reachable : ContractState → ContractState → Prop
  | refl (s : ContractState) : Reachable s s
  | tail {s t u : ContractState} (env : CallEnv) (op : Op) :
      Reachable s t → stepOp env t op = Except.ok u → Reachable s u

/-- An active sample subscription, one day's fee funded tenfold. -/
def subA : Subscription :=
  { owner := 2, base := 10, quote := 11, threshold := 500, heartbeat := 5,
    webhook := [], balance := 1000, status := SubscriptionStatus.Active, updated := 0 }

/-- A suspended sample subscription with a balance below the fee. -/
def subS : Subscription :=
  { owner := 4, base := 10, quote := 11, threshold := 500, heartbeat := 5,
    webhook := [], balance := 40, status := SubscriptionStatus.Suspended, updated := 0 }

/-- An initialized sample state holding `subA` under id 1. -/
def stA : ContractState :=
  { admin := some 1, fee := 100, token := 7, last_subscription_id := 1,
    subs := [(1, subA)], events := [], tokenOps := [], ttlOps := [] }

/-- An initialized sample state holding `subS` under id 1. -/
def stS : ContractState :=
  { admin := some 1, fee := 100, token := 7, last_subscription_id := 1,
    subs := [(1, subS)], events := [], tokenOps := [], ttlOps := [] }

/-- An initialized sample state with a zero base fee and `subA` under id 1. -/
def stZ : ContractState :=
  { admin := some 1, fee := 0, token := 7, last_subscription_id := 1,
    subs := [(1, subA)], events := [], tokenOps := [], ttlOps := [] }

/-- The blank pre-initialization state. -/
def stEmpty : ContractState :=
  { admin := none, fee := 0, token := 0, last_subscription_id := 0,
    subs := [], events := [], tokenOps := [], ttlOps := [] }

/-- A sample host environment two days after the epoch. -/
def envA : CallEnv := { timestampSec := 172800, maxTTL := 3110400, contractAddr := 0 }

/-- Valid sample creation parameters. -/
def pA : SubscriptionInitParams :=
  { owner := 3, base := 10, quote := 11, threshold := 500, heartbeat := 5, webhook := [] }

/-- Sample creation parameters with a too-small heartbeat. -/
def pBadHeartbeat : SubscriptionInitParams :=
  { owner := 3, base := 10, quote := 11, threshold := 500, heartbeat := 1, webhook := [] }

/-- A sample configuration. -/
def cfgA : ContractConfig := { admin := 1, fee := 100, token := 7 }

/-- The state produced by the witness call `charge envA stA [1]`. -/
def chargedA : ContractState :=
  ((charge envA stA [1]).toOption).getD stA

/-- The state produced by the witness call `deposit envA stA 2 1 50`. -/
def depositedA : ContractState :=
  ((deposit envA stA 2 1 50).toOption).getD stA

/-- Spec-side restatement of the retention computation (claim C7 as
amended): when the day count and the product stay within `u32` range, the
horizon is `ceil(balance / fee) × 17280`, rejected with `InvalidAmount`
above `max_ttl`; and no successful call ever yields a horizon above
`max_ttl`. -/
def RetentionSpec (env : CallEnv) (fee amount : Nat) : Prop :=
  (∀ l, calc_ledgers_to_live env fee amount = Except.ok l → l ≤ env.maxTTL) ∧
  ((amount + fee - 1) / fee < U32MOD →
    (amount + fee - 1) / fee * 17280 < U32MOD →
    calc_ledgers_to_live env fee amount =
      (if (amount + fee - 1) / fee * 17280 > env.maxTTL
       then Except.error (Failure.contractError Error.InvalidAmount)
       else Except.ok ((amount + fee - 1) / fee * 17280)))

/-- Spec-side restatement of the zero-fee hazard (claim C10): `set_fee`
stores any value without bounds checks, and with a stored fee of zero both
`create_subscription` (on otherwise valid inputs) and `deposit` (on an
existing record, nonzero amount) end in the unguarded division-by-zero
trap, which is none of the documented contract errors. -/
def ZeroFeeSpec (env : CallEnv) (s : ContractState) (p : SubscriptionInitParams)
    (sender id amount : Nat) (sub : Subscription) : Prop :=
  (∀ f, set_fee s f = Except.ok { s with fee := f }) ∧
  (s.fee = 0 → MIN_HEARTBEAT ≤ p.heartbeat → 0 < p.threshold → p.threshold ≤ 10000 →
    p.webhook.length ≤ MAX_WEBHOOK_SIZE →
    create_subscription env s p amount = Except.error Failure.divByZeroTrap) ∧
  (s.fee = 0 → amount ≠ 0 → storeGet s.subs id = some sub →
    deposit env s sender id amount = Except.error Failure.divByZeroTrap) ∧
  (∀ e, Failure.divByZeroTrap ≠ Failure.contractError e)

/-- The result of the witness call `create_subscription envA stA pA 300`. -/
def createResA : (Nat × Subscription) × ContractState :=
  ((create_subscription envA stA pA 300).toOption).getD ((0, subA), stA)

/-- The state produced by the witness call `config stEmpty cfgA`. -/
def cfgResA : ContractState :=
  ((config stEmpty cfgA).toOption).getD stEmpty

lemma storeGet_storeSet_self (l : List (Nat × Subscription)) (id : Nat)
    (sub : Subscription) : storeGet (storeSet l id sub) id = some sub := by
  simp [storeSet, storeGet]

lemma storeGet_storeRemove_self (l : List (Nat × Subscription)) (id : Nat) :
    storeGet (storeRemove l id) id = none := by
  induction l with
  | nil => simp [storeRemove, storeGet]
  | cons p rest ih =>
    by_cases h : p.1 = id
    · simp [storeRemove, h, ih]
    · simp [storeRemove, storeGet, h, ih]

lemma chargeStep_of_get {env : CallEnv} {s : ContractState} {id : Nat}
    {sub : Subscription} (total : Nat) (hget : storeGet s.subs id = some sub) :
    chargeStep env s total id = chargeSub env s total id sub := by
  unfold chargeStep
  rw [hget]

lemma specCharge_eq (env : CallEnv) (s : ContractState) (sub : Subscription) :
    specCharge env s sub =
      if sub.balance < specElapsedDays env sub * specFee s sub
      then sub.balance else specElapsedDays env sub * specFee s sub := by
  unfold specCharge
  split <;> omega

/-- C1.  Each record resolved inside `charge` is skipped untouched when no
full day has elapsed; otherwise it is charged `elapsed_days × fee` capped
at its balance, `updated` is set to `now`, it is suspended exactly when the
remaining balance is below the fee, and the suspension event precedes the
charge event. -/
theorem charge_per_record (env : CallEnv) (s : ContractState) (total id : Nat)
    (sub : Subscription) (hget : storeGet s.subs id = some sub)
    (hclock : sub.updated ≤ nowMs env) :
    ChargeRecordSpec env s total id sub := by
  have hstep := @chargeStep_of_get env s id sub total hget
  have hcharge := specCharge_eq env s sub
  unfold ChargeRecordSpec
  simp only [specCharge, specElapsedDays, specFee, calc_fee] at hcharge ⊢
  constructor
  · intro h0
    rw [hstep]
    unfold chargeSub
    simp only [calc_fee]
    rw [if_pos h0]
  · intro hne
    rw [hstep]
    unfold chargeSub
    simp only [calc_fee]
    rw [if_neg hne]
    by_cases hcap : sub.balance < (nowMs env - sub.updated) / DAY * s.fee
    · have hmin : min ((nowMs env - sub.updated) / DAY * s.fee) sub.balance = sub.balance :=
        min_eq_right hcap.le
      simp only [if_pos hcap, hmin]
      by_cases hsusp : 0 < s.fee
      · simp [hsusp, storeGet_storeSet_self]
      · simp [hsusp, storeGet_storeSet_self]
    · have hge : (nowMs env - sub.updated) / DAY * s.fee ≤ sub.balance := not_lt.mp hcap
      have hmin : min ((nowMs env - sub.updated) / DAY * s.fee) sub.balance =
          (nowMs env - sub.updated) / DAY * s.fee := min_eq_left hge
      simp only [if_neg hcap, hmin]
      by_cases hsusp : sub.balance - (nowMs env - sub.updated) / DAY * s.fee < s.fee
      · simp [hsusp, storeGet_storeSet_self, hge]
      · simp [hsusp, storeGet_storeSet_self, hge]

/-- Witness for C1: a record funded for ten days, charged after two days. -/
theorem charge_per_record_witness :
    storeGet stA.subs 1 = some subA ∧ subA.updated ≤ nowMs envA ∧
    ChargeRecordSpec envA stA 0 1 subA :=
  ⟨by decide, by decide, charge_per_record envA stA 0 1 subA (by decide) (by decide)⟩

lemma chargeSub_fst_total (env : CallEnv) (s : ContractState) (id : Nat)
    (sub : Subscription) (total : Nat) :
    (chargeSub env s total id sub).1 = (chargeSub env s 0 id sub).1 := by
  unfold chargeSub
  dsimp only
  split
  · rfl
  · split <;> split <;> rfl

lemma chargeSub_snd (env : CallEnv) (s : ContractState) (id : Nat)
    (sub : Subscription) (total : Nat) (hget : storeGet s.subs id = some sub) :
    (chargeSub env s total id sub).2 = total + recordCharge env s id := by
  unfold chargeSub recordCharge
  rw [hget]
  dsimp only
  split
  · simp
  · split <;> split <;> rfl

lemma chargeStep_fst_total (env : CallEnv) (s : ContractState) (id total : Nat) :
    (chargeStep env s total id).1 = (chargeStep env s 0 id).1 := by
  unfold chargeStep
  cases h : storeGet s.subs id
  · rfl
  · exact chargeSub_fst_total env s id _ total

lemma chargeStep_snd (env : CallEnv) (s : ContractState) (id total : Nat) :
    (chargeStep env s total id).2 = total + recordCharge env s id := by
  unfold chargeStep
  cases h : storeGet s.subs id
  · unfold recordCharge
    rw [h]
    simp
  · rw [chargeSub_snd env s id _ total h]

lemma chargeStep_fields (env : CallEnv) (s : ContractState) (total id : Nat) :
    (chargeStep env s total id).1.admin = s.admin ∧
    (chargeStep env s total id).1.fee = s.fee ∧
    (chargeStep env s total id).1.last_subscription_id = s.last_subscription_id ∧
    (chargeStep env s total id).1.tokenOps = s.tokenOps := by
  unfold chargeStep
  cases h : storeGet s.subs id
  · exact ⟨rfl, rfl, rfl, rfl⟩
  · unfold chargeSub
    dsimp only
    split
    · exact ⟨rfl, rfl, rfl, rfl⟩
    · split <;> split <;> exact ⟨rfl, rfl, rfl, rfl⟩

lemma chargeLoop_fst (env : CallEnv) (ids : List Nat) :
    ∀ (s : ContractState) (total : Nat),
      (chargeLoop env (s, total) ids).1 = (chargeLoop env (s, 0) ids).1 := by
  induction ids with
  | nil => intro s total; rfl
  | cons id rest ih =>
    intro s total
    show (chargeLoop env (chargeStep env s total id) rest).1 =
         (chargeLoop env (chargeStep env s 0 id) rest).1
    rw [← @Prod.mk.eta _ _ (chargeStep env s total id),
        ← @Prod.mk.eta _ _ (chargeStep env s 0 id),
        chargeStep_fst_total env s id total]
    rw [ih ((chargeStep env s 0 id).1) ((chargeStep env s total id).2),
        ih ((chargeStep env s 0 id).1) ((chargeStep env s 0 id).2)]

lemma chargeLoop_snd (env : CallEnv) (ids : List Nat) :
    ∀ (s : ContractState) (total : Nat),
      (chargeLoop env (s, total) ids).2 = total + chargeTotal env s ids := by
  induction ids with
  | nil => intro s total; simp [chargeLoop, chargeTotal]
  | cons id rest ih =>
    intro s total
    show (chargeLoop env (chargeStep env s total id) rest).2 =
         total + chargeTotal env s (id :: rest)
    rw [← @Prod.mk.eta _ _ (chargeStep env s total id),
        chargeStep_fst_total env s id total, chargeStep_snd env s id total]
    rw [ih]
    have hct : chargeTotal env s (id :: rest) =
        recordCharge env s id + chargeTotal env (chargeStep env s 0 id).1 rest := rfl
    rw [hct]
    omega

lemma chargeLoop_fields (env : CallEnv) (ids : List Nat) :
    ∀ (s : ContractState) (total : Nat),
      (chargeLoop env (s, total) ids).1.admin = s.admin ∧
      (chargeLoop env (s, total) ids).1.fee = s.fee ∧
      (chargeLoop env (s, total) ids).1.last_subscription_id = s.last_subscription_id ∧
      (chargeLoop env (s, total) ids).1.tokenOps = s.tokenOps := by
  induction ids with
  | nil => intro s total; exact ⟨rfl, rfl, rfl, rfl⟩
  | cons id rest ih =>
    intro s total
    show (chargeLoop env (chargeStep env s total id) rest).1.admin = s.admin ∧ _
    rw [← @Prod.mk.eta _ _ (chargeStep env s total id)]
    obtain ⟨h1, h2, h3, h4⟩ := ih (chargeStep env s total id).1 (chargeStep env s total id).2
    obtain ⟨g1, g2, g3, g4⟩ := chargeStep_fields env s total id
    exact ⟨h1.trans g1, h2.trans g2, h3.trans g3, h4.trans g4⟩

/-- C8.  A successful `charge(ids)` burns, in one token-ledger call from
the contract's own balance, exactly the sum of the per-record charges; and
when that sum is zero it makes no token-ledger call at all. -/
theorem charge_batch_burn (env : CallEnv) (s : ContractState) (ids : List Nat)
    (s1 : ContractState) (h : charge env s ids = Except.ok s1) :
    ChargeBurnSpec env s ids s1 := by
  unfold charge at h
  cases hadm : s.admin with
  | none => rw [hadm] at h; exact absurd h (by simp)
  | some a =>
    rw [hadm] at h
    dsimp only at h
    have hsnd := chargeLoop_snd env ids s 0
    have hfields := chargeLoop_fields env ids s 0
    unfold ChargeBurnSpec
    by_cases hz : (chargeLoop env (s, 0) ids).2 = 0
    · rw [if_pos hz] at h
      injection h with h
      subst h
      refine ⟨fun _ => hfields.2.2.2, fun hne => ?_⟩
      exfalso
      omega
    · rw [if_neg hz] at h
      injection h with h
      subst h
      refine ⟨fun h0 => by omega, fun hne => ?_⟩
      dsimp only
      rw [hfields.2.2.2]
      have hct : (chargeLoop env (s, 0) ids).2 = chargeTotal env s ids := by omega
      rw [hct]

/-- Witness for C8: one record charged 200 over two elapsed days, burned in
a single call. -/
theorem charge_batch_burn_witness :
    charge envA stA [1] = Except.ok chargedA ∧ ChargeBurnSpec envA stA [1] chargedA :=
  ⟨by rfl, charge_batch_burn envA stA [1] chargedA (by rfl)⟩

lemma calc_ledgers_ok {env : CallEnv} {fee amount l : Nat}
    (h : calc_ledgers_to_live env fee amount = Except.ok l) :
    0 < fee ∧ l ≤ env.maxTTL := by
  unfold calc_ledgers_to_live at h
  split at h
  · exact absurd h (by simp)
  · dsimp only at h
    split at h
    · exact absurd h (by simp)
    · injection h with h
      subst h
      constructor
      · omega
      · omega

lemma transfer_to_contract_spec (env : CallEnv) (s : ContractState)
    (src amount burn : Nat) :
    transfer_tokens_to_current_contract env s src amount burn =
      { s with tokenOps := s.tokenOps ++ [TokenOp.transferOp src env.contractAddr amount] ++
          (if 0 < burn then [TokenOp.burnOp env.contractAddr burn] else []) } := by
  unfold transfer_tokens_to_current_contract transfer_tokens
  by_cases hb : 0 < burn
  · simp [hb]
  · simp [hb]

lemma depositCore_ok {env : CallEnv} {s : ContractState} {sender id amount : Nat}
    {sub : Subscription} {fee burn : Nat} {s1 : ContractState}
    (h : depositCore env s sender id amount sub fee burn = Except.ok s1) :
    0 < fee ∧
    s1.admin = s.admin ∧
    s1.fee = s.fee ∧
    s1.last_subscription_id = s.last_subscription_id ∧
    s1.tokenOps = s.tokenOps ++ [TokenOp.transferOp sender env.contractAddr amount] ++
      (if 0 < burn then [TokenOp.burnOp env.contractAddr burn] else []) ∧
    storeGet s1.subs id = some { sub with balance := sub.balance + (amount - burn) } := by
  unfold depositCore at h
  rw [transfer_to_contract_spec] at h
  dsimp only at h
  split at h
  · exact absurd h (by simp)
  · next l hl =>
      injection h with h
      subst h
      refine ⟨(calc_ledgers_ok hl).1, rfl, rfl, rfl, rfl, ?_⟩
      exact storeGet_storeSet_self _ _ _

/-- C3.  `deposit` on a suspended record rejects amounts below the fee with
`InvalidAmount`; with `amount ≥ fee` it burns exactly the fee, reactivates
the record and credits `amount - fee`; on an active record it credits the
full amount and burns nothing. -/
theorem deposit_status_handling (env : CallEnv) (s : ContractState)
    (sender id amount : Nat) (sub : Subscription)
    (hinit : isInitialized s = true) (hget : storeGet s.subs id = some sub) :
    DepositSpec env s sender id amount sub := by
  unfold DepositSpec
  simp only [specFee, calc_fee]
  refine ⟨?_, ?_, ?_⟩
  · intro hst hlt
    unfold deposit
    rw [if_pos hinit]
    by_cases h0 : amount = 0
    · rw [if_pos h0]
    · rw [if_neg h0]
      rw [hget]
      dsimp only
      rw [hst]
      simp only [calc_fee]
      rw [if_pos hlt]
  · intro hst hge s1 hok
    unfold deposit at hok
    rw [if_pos hinit] at hok
    by_cases h0 : amount = 0
    · rw [if_pos h0] at hok; exact absurd hok (by simp)
    · rw [if_neg h0] at hok
      rw [hget] at hok
      dsimp only at hok
      rw [hst] at hok
      simp only [calc_fee] at hok
      rw [if_neg (not_lt.mpr hge)] at hok
      obtain ⟨hfee, -, -, -, hops, hsub⟩ := depositCore_ok hok
      constructor
      · rw [hops, if_pos hfee]
        simp
      · simpa using hsub
  · intro hst s1 hok
    unfold deposit at hok
    rw [if_pos hinit] at hok
    by_cases h0 : amount = 0
    · rw [if_pos h0] at hok; exact absurd hok (by simp)
    · rw [if_neg h0] at hok
      rw [hget] at hok
      dsimp only at hok
      rw [hst] at hok
      simp only [calc_fee] at hok
      obtain ⟨-, -, -, -, hops, hsub⟩ := depositCore_ok hok
      constructor
      · rw [hops]
        simp
      · simpa using hsub

/-- Witness for C3: a suspended record rejecting 50, reactivated by 150,
and an active record credited 50. -/
theorem deposit_status_handling_witness :
    isInitialized stS = true ∧ storeGet stS.subs 1 = some subS ∧
    DepositSpec envA stS 2 1 150 subS ∧ DepositSpec envA stS 2 1 50 subS ∧
    DepositSpec envA stA 2 1 50 subA :=
  ⟨by decide, by decide,
   deposit_status_handling envA stS 2 1 150 subS (by decide) (by decide),
   deposit_status_handling envA stS 2 1 50 subS (by decide) (by decide),
   deposit_status_handling envA stA 2 1 50 subA (by decide) (by decide)⟩

/-- Counterexample to C2 as stated: after a successful
`deposit envA stA 2 1 50` the stored record's `updated` field is still 0,
while `now` is 172800000 — `deposit` never writes `updated`. -/
theorem deposit_updated_counterexample :
    Except.map (fun s1 => Option.map Subscription.updated (storeGet s1.subs 1))
      (deposit envA stA 2 1 50) = Except.ok (some 0) ∧
    nowMs envA = 172800000 ∧ (0 : Nat) ≠ 172800000 :=
  ⟨by rfl, by rfl, by decide⟩

/-- C2 as amended.  After every successful `deposit`, the stored record's
`updated` field equals its value before the deposit: `deposit` refreshes
the balance but not the timestamp. -/
theorem deposit_preserves_updated (env : CallEnv) (s : ContractState)
    (sender id amount : Nat) (sub : Subscription) (s1 : ContractState)
    (hget : storeGet s.subs id = some sub)
    (hok : deposit env s sender id amount = Except.ok s1) :
    Option.map Subscription.updated (storeGet s1.subs id) = some sub.updated := by
  unfold deposit at hok
  by_cases hI : isInitialized s = true
  · rw [if_pos hI] at hok
    by_cases h0 : amount = 0
    · rw [if_pos h0] at hok; exact absurd hok (by simp)
    · rw [if_neg h0] at hok
      rw [hget] at hok
      dsimp only at hok
      cases hst : sub.status
      · rw [hst] at hok
        obtain ⟨-, -, -, -, -, hsub⟩ := depositCore_ok hok
        rw [hsub]
        rfl
      · rw [hst] at hok
        by_cases hamt : amount < calc_fee s sub.heartbeat sub.threshold
        · rw [if_pos hamt] at hok
          exact absurd hok (by simp)
        · rw [if_neg hamt] at hok
          obtain ⟨-, -, -, -, -, hsub⟩ := depositCore_ok hok
          rw [hsub]
          rfl
  · rw [if_neg hI] at hok
    exact absurd hok (by simp)

/-- Witness for C2 as amended: the record deposited into keeps
`updated = 0`. -/
theorem deposit_preserves_updated_witness :
    storeGet stA.subs 1 = some subA ∧
    deposit envA stA 2 1 50 = Except.ok depositedA ∧
    Option.map Subscription.updated (storeGet depositedA.subs 1) = some subA.updated :=
  ⟨by decide, by rfl,
   deposit_preserves_updated envA stA 2 1 50 subA depositedA (by decide) (by rfl)⟩

lemma create_ok_core {env : CallEnv} {s : ContractState} {p : SubscriptionInitParams}
    {amount id : Nat} {sub : Subscription} {s1 : ContractState}
    (h : create_subscription env s p amount = Except.ok ((id, sub), s1)) :
    id = s.last_subscription_id + 1 ∧
    sub = { owner := p.owner, base := p.base, quote := p.quote, threshold := p.threshold,
            heartbeat := p.heartbeat, webhook := p.webhook, balance := amount - s.fee * 2,
            status := SubscriptionStatus.Active, updated := nowMs env } ∧
    s1.admin = s.admin ∧
    s1.fee = s.fee ∧
    s1.last_subscription_id = s.last_subscription_id + 1 ∧
    storeGet s1.subs id = some sub := by
  unfold create_subscription at h
  by_cases hI : isInitialized s = true
  case neg => rw [if_neg hI] at h; exact absurd h (by simp)
  rw [if_pos hI] at h
  simp only [calc_fee] at h
  by_cases h1 : amount < s.fee * 2
  · rw [if_pos h1] at h; exact absurd h (by simp)
  rw [if_neg h1] at h
  by_cases h2 : p.heartbeat < MIN_HEARTBEAT
  · rw [if_pos h2] at h; exact absurd h (by simp)
  rw [if_neg h2] at h
  by_cases h3 : p.threshold = 0 ∨ p.threshold > 10000
  · rw [if_pos h3] at h; exact absurd h (by simp)
  rw [if_neg h3] at h
  by_cases h4 : p.webhook.length > MAX_WEBHOOK_SIZE
  · rw [if_pos h4] at h; exact absurd h (by simp)
  rw [if_neg h4] at h
  rw [transfer_to_contract_spec] at h
  dsimp only at h
  split at h
  · exact absurd h (by simp)
  · next l hl =>
      injection h with h
      injection h with ha hb
      injection ha with hid hsub
      subst hid
      subst hsub
      subst hb
      exact ⟨rfl, rfl, rfl, rfl, rfl, storeGet_storeSet_self _ _ _⟩

lemma config_ok_fields {s : ContractState} {cfg : ContractConfig} {s1 : ContractState}
    (h : config s cfg = Except.ok s1) :
    isInitialized s = false ∧ s1.admin = some cfg.admin ∧ s1.fee = cfg.fee ∧
    s1.token = cfg.token ∧ s1.last_subscription_id = 0 := by
  unfold config at h
  by_cases hI : isInitialized s = true
  · rw [if_pos hI] at h; exact absurd h (by simp)
  · rw [if_neg hI] at h
    injection h with h
    subst h
    exact ⟨by simpa using hI, rfl, rfl, rfl, rfl⟩

lemma set_fee_ok_fields {s : ContractState} {f : Nat} {s1 : ContractState}
    (h : set_fee s f = Except.ok s1) :
    s1.admin = s.admin ∧ s1.fee = f ∧
    s1.last_subscription_id = s.last_subscription_id := by
  unfold set_fee at h
  cases hadm : s.admin with
  | none => rw [hadm] at h; exact absurd h (by simp)
  | some a =>
    rw [hadm] at h
    injection h with h
    subst h
    exact ⟨rfl, rfl, rfl⟩

lemma charge_ok_fields {env : CallEnv} {s : ContractState} {ids : List Nat}
    {s1 : ContractState} (h : charge env s ids = Except.ok s1) :
    s1.admin = s.admin ∧ s1.fee = s.fee ∧
    s1.last_subscription_id = s.last_subscription_id := by
  unfold charge at h
  cases hadm : s.admin with
  | none => rw [hadm] at h; exact absurd h (by simp)
  | some a =>
    rw [hadm] at h
    dsimp only at h
    have hfields := chargeLoop_fields env ids s 0
    by_cases hz : (chargeLoop env (s, 0) ids).2 = 0
    · rw [if_pos hz] at h
      injection h with h
      subst h
      exact ⟨hfields.1.trans hadm, hfields.2.1, hfields.2.2.1⟩
    · rw [if_neg hz] at h
      injection h with h
      subst h
      exact ⟨hfields.1.trans hadm, hfields.2.1, hfields.2.2.1⟩

lemma deposit_ok_fields {env : CallEnv} {s : ContractState} {sender id amount : Nat}
    {s1 : ContractState} (h : deposit env s sender id amount = Except.ok s1) :
    s1.admin = s.admin ∧ s1.fee = s.fee ∧
    s1.last_subscription_id = s.last_subscription_id := by
  unfold deposit at h
  by_cases hI : isInitialized s = true
  case neg => rw [if_neg hI] at h; exact absurd h (by simp)
  rw [if_pos hI] at h
  by_cases h0 : amount = 0
  · rw [if_pos h0] at h; exact absurd h (by simp)
  rw [if_neg h0] at h
  cases hget : storeGet s.subs id with
  | none => rw [hget] at h; exact absurd h (by simp)
  | some sub =>
    rw [hget] at h
    dsimp only at h
    cases hst : sub.status
    · rw [hst] at h
      obtain ⟨-, ha, hf, hl, -, -⟩ := depositCore_ok h
      exact ⟨ha, hf, hl⟩
    · rw [hst] at h
      by_cases hamt : amount < calc_fee s sub.heartbeat sub.threshold
      · rw [if_pos hamt] at h; exact absurd h (by simp)
      · rw [if_neg hamt] at h
        obtain ⟨-, ha, hf, hl, -, -⟩ := depositCore_ok h
        exact ⟨ha, hf, hl⟩

lemma cancel_ok_fields {env : CallEnv} {s : ContractState} {id : Nat}
    {s1 : ContractState} (h : cancel env s id = Except.ok s1) :
    s1.admin = s.admin ∧ s1.fee = s.fee ∧
    s1.last_subscription_id = s.last_subscription_id := by
  unfold cancel at h
  by_cases hI : isInitialized s = true
  case neg => rw [if_neg hI] at h; exact absurd h (by simp)
  rw [if_pos hI] at h
  cases hget : storeGet s.subs id with
  | none => rw [hget] at h; exact absurd h (by simp)
  | some sub =>
    rw [hget] at h
    dsimp only at h
    cases hst : sub.status
    · rw [hst] at h
      injection h with h
      subst h
      exact ⟨rfl, rfl, rfl⟩
    · rw [hst] at h
      exact absurd h (by simp)

lemma stepOp_mono {env : CallEnv} {s s1 : ContractState} {op : Op}
    (hinit : isInitialized s = true) (h : stepOp env s op = Except.ok s1) :
    s1.admin = s.admin ∧ s.last_subscription_id ≤ s1.last_subscription_id := by
  cases op with
  | cfgOp cfg =>
    unfold stepOp at h
    obtain ⟨hni, -⟩ := config_ok_fields h
    rw [hinit] at hni
    exact absurd hni (by simp)
  | feeOp f =>
    unfold stepOp at h
    obtain ⟨ha, -, hl⟩ := set_fee_ok_fields h
    exact ⟨ha, le_of_eq hl.symm⟩
  | chargeOp ids =>
    unfold stepOp at h
    obtain ⟨ha, -, hl⟩ := charge_ok_fields h
    exact ⟨ha, le_of_eq hl.symm⟩
  | createOp p amount =>
    simp only [stepOp] at h
    cases hc : create_subscription env s p amount with
    | error f => rw [hc] at h; exact absurd h (by simp)
    | ok r =>
      rw [hc] at h
      injection h with h
      subst h
      obtain ⟨⟨id, sub⟩, s2⟩ := r
      obtain ⟨-, -, ha, -, hl, -⟩ := create_ok_core hc
      exact ⟨ha, by dsimp only; omega⟩
  | depositOp sender id amount =>
    unfold stepOp at h
    obtain ⟨ha, -, hl⟩ := deposit_ok_fields h
    exact ⟨ha, le_of_eq hl.symm⟩
  | cancelOp id =>
    unfold stepOp at h
    obtain ⟨ha, -, hl⟩ := cancel_ok_fields h
    exact ⟨ha, le_of_eq hl.symm⟩

lemma reachable_mono {s t : ContractState} (hinit : isInitialized s = true)
    (hr : Reachable s t) :
    isInitialized t = true ∧
    s.last_subscription_id ≤ t.last_subscription_id := by
  induction hr with
  | refl => exact ⟨hinit, le_refl _⟩
  | tail env op hr hstep ih =>
    obtain ⟨hit, hle⟩ := ih
    obtain ⟨ha, hle2⟩ := stepOp_mono hit hstep
    refine ⟨?_, le_trans hle hle2⟩
    unfold isInitialized at hit ⊢
    rw [ha]
    exact hit

/-- C4.  A successful creation stores `balance = amount - 2×fee`,
`status = Active`, `updated = now` under id `previous_last_id + 1` and
advances the counter to that id; `config` starts the counter at 0 (so the
first id is 1); and along any sequence of successful calls from an
initialized state the counter never decreases, so every later-created id
strictly exceeds every id assigned at or before that state — ids are never
reused, even after cancellation. -/
theorem create_id_assignment :
    (∀ env s p amount id sub s1,
       create_subscription env s p amount = Except.ok ((id, sub), s1) →
       CreateResultSpec env s amount id sub s1) ∧
    (∀ s cfg s1, config s cfg = Except.ok s1 → s1.last_subscription_id = 0) ∧
    (∀ s t, isInitialized s = true → Reachable s t →
       ∀ env p amount id sub t1,
         create_subscription env t p amount = Except.ok ((id, sub), t1) →
         s.last_subscription_id < id) := by
  refine ⟨?_, ?_, ?_⟩
  · intro env s p amount id sub s1 h
    obtain ⟨hid, hsub, -, -, hlast, hget⟩ := create_ok_core h
    refine ⟨?_, ?_, ?_, hid, hlast.trans hid.symm, hget⟩
    · rw [hsub]
      dsimp only
      omega
    · rw [hsub]
    · rw [hsub]
  · intro s cfg s1 h
    exact (config_ok_fields h).2.2.2.2
  · intro s t hinit hr env p amount id sub t1 h
    obtain ⟨-, hle⟩ := reachable_mono hinit hr
    obtain ⟨hid, -, -, -, -, -⟩ := create_ok_core h
    omega

/-- Witness for C4: creation from a counter at 1 yields id 2, balance
`300 - 2×100`, and the one-shot `config` initializes the counter to 0. -/
theorem create_id_assignment_witness :
    create_subscription envA stA pA 300 =
      Except.ok ((createResA.1.1, createResA.1.2), createResA.2) ∧
    CreateResultSpec envA stA 300 createResA.1.1 createResA.1.2 createResA.2 ∧
    config stEmpty cfgA = Except.ok cfgResA ∧
    cfgResA.last_subscription_id = 0 ∧
    isInitialized stA = true ∧
    stA.last_subscription_id < createResA.1.1 :=
  ⟨by rfl,
   create_id_assignment.1 envA stA pA 300 createResA.1.1 createResA.1.2 createResA.2
     (by rfl),
   by rfl,
   create_id_assignment.2.1 stEmpty cfgA cfgResA (by rfl),
   by decide,
   create_id_assignment.2.2 stA stA (by decide) (Reachable.refl stA) envA pA 300
     createResA.1.1 createResA.1.2 createResA.2 (by rfl)⟩

/-- Counterexample to C5 as stated: with `heartbeat = 1 < MIN_HEARTBEAT`
and `amount = 0 < 2×fee`, creation fails with `InvalidAmount`, not
`InvalidHeartbeat` — the amount check runs before the heartbeat check. -/
theorem create_error_priority_counterexample :
    pBadHeartbeat.heartbeat < MIN_HEARTBEAT ∧
    (0 : Nat) < 2 * stA.fee ∧
    create_subscription envA stA pBadHeartbeat 0 =
      Except.error (Failure.contractError Error.InvalidAmount) ∧
    Failure.contractError Error.InvalidAmount ≠
      Failure.contractError Error.InvalidHeartbeat :=
  ⟨by decide, by decide, by rfl, by decide⟩

/-- C5 as amended.  On an initialized state, creation with
`amount < 2×fee` always fails with `InvalidAmount`, whatever the other
fields; creation with `amount ≥ 2×fee` and `heartbeat < MIN_HEARTBEAT`
fails with `InvalidHeartbeat` — the amount check precedes the heartbeat
check. -/
theorem create_check_order (env : CallEnv) (s : ContractState)
    (p : SubscriptionInitParams) (amount : Nat)
    (hinit : isInitialized s = true) :
    (amount < 2 * s.fee →
      create_subscription env s p amount =
        Except.error (Failure.contractError Error.InvalidAmount)) ∧
    (2 * s.fee ≤ amount → p.heartbeat < MIN_HEARTBEAT →
      create_subscription env s p amount =
        Except.error (Failure.contractError Error.InvalidHeartbeat)) := by
  constructor
  · intro hlt
    unfold create_subscription
    rw [if_pos hinit]
    simp only [calc_fee]
    rw [if_pos (show amount < s.fee * 2 by omega)]
  · intro hge hhb
    unfold create_subscription
    rw [if_pos hinit]
    simp only [calc_fee]
    rw [if_neg (show ¬ amount < s.fee * 2 by omega), if_pos hhb]

/-- Witness for C5 as amended: amount 0 is rejected as `InvalidAmount`
even with a bad heartbeat; amount 300 with heartbeat 1 is rejected as
`InvalidHeartbeat`. -/
theorem create_check_order_witness :
    isInitialized stA = true ∧
    (((0 : Nat) < 2 * stA.fee →
       create_subscription envA stA pBadHeartbeat 0 =
         Except.error (Failure.contractError Error.InvalidAmount)) ∧
     (2 * stA.fee ≤ 0 → pBadHeartbeat.heartbeat < MIN_HEARTBEAT →
       create_subscription envA stA pBadHeartbeat 0 =
         Except.error (Failure.contractError Error.InvalidHeartbeat))) ∧
    ((300 < 2 * stA.fee →
       create_subscription envA stA pBadHeartbeat 300 =
         Except.error (Failure.contractError Error.InvalidAmount)) ∧
     (2 * stA.fee ≤ 300 → pBadHeartbeat.heartbeat < MIN_HEARTBEAT →
       create_subscription envA stA pBadHeartbeat 300 =
         Except.error (Failure.contractError Error.InvalidHeartbeat))) :=
  ⟨by decide,
   create_check_order envA stA pBadHeartbeat 0 (by decide),
   create_check_order envA stA pBadHeartbeat 300 (by decide)⟩

lemma get_subscription_absent (s1 : ContractState) (id : Nat)
    (hI : isInitialized s1 = true) (hnone : storeGet s1.subs id = none) :
    get_subscription s1 id =
      Except.error (Failure.contractError Error.SubscriptionNotFound) := by
  unfold get_subscription
  rw [if_pos hI, hnone]

lemma cancel_ok_spec {env : CallEnv} {s : ContractState} {id : Nat}
    {sub : Subscription} (hI : isInitialized s = true)
    (hget : storeGet s.subs id = some sub)
    (hact : sub.status = SubscriptionStatus.Active) :
    cancel env s id = Except.ok
      { s with subs := storeRemove s.subs id,
               tokenOps := s.tokenOps ++
                 [TokenOp.transferOp env.contractAddr sub.owner sub.balance],
               events := s.events ++ [Event.cancelled sub.owner id] } := by
  unfold cancel
  rw [if_pos hI, hget]
  dsimp only
  rw [hact]
  rfl

/-- C6.  `cancel` on a suspended record always fails with
`InvalidSubscriptionStatusError` (the error aborts the call, so nothing is
mutated); on an active record it transfers the full remaining balance from
the contract to the owner, removes the record, and a subsequent
`get_subscription` fails with `SubscriptionNotFound`. -/
theorem cancel_behavior (env : CallEnv) (s : ContractState) (id : Nat)
    (sub : Subscription) (hinit : isInitialized s = true)
    (hget : storeGet s.subs id = some sub) :
    CancelSpec env s id sub := by
  unfold CancelSpec
  constructor
  · intro hst
    unfold cancel
    rw [if_pos hinit, hget]
    dsimp only
    rw [hst]
  · intro hst
    have hc := @cancel_ok_spec env s id sub hinit hget hst
    refine ⟨hc, ?_⟩
    intro s1 h1
    rw [hc] at h1
    injection h1 with h1
    subst h1
    exact get_subscription_absent _ id hinit (storeGet_storeRemove_self _ _)

/-- Witness for C6: cancelling the suspended record fails; cancelling the
active one pays out 1000 and removes the record. -/
theorem cancel_behavior_witness :
    isInitialized stS = true ∧ storeGet stS.subs 1 = some subS ∧
    CancelSpec envA stS 1 subS ∧
    isInitialized stA = true ∧ storeGet stA.subs 1 = some subA ∧
    CancelSpec envA stA 1 subA :=
  ⟨by decide, by decide, cancel_behavior envA stS 1 subS (by decide) (by decide),
   by decide, by decide, cancel_behavior envA stA 1 subA (by decide) (by decide)⟩

/-- Counterexample to C7 as stated: with fee 1 and balance 2^32, the day
count `ceil(balance / fee) = 2^32` is truncated by the `as u32` cast to 0,
so the call returns horizon 0 although the claimed horizon
`ceil(balance / fee) × 17280` exceeds `max_ttl = 3110400` and the claim
demands an `InvalidAmount` failure. -/
theorem retention_truncation_counterexample :
    (4294967296 + 1 - 1) / 1 * 17280 > envA.maxTTL ∧
    calc_ledgers_to_live envA 1 4294967296 = Except.ok 0 ∧
    (Except.ok 0 : Except Failure Nat) ≠
      Except.error (Failure.contractError Error.InvalidAmount) :=
  ⟨by decide, by rfl, by simp⟩

/-- C7 as amended.  For `fee > 0`, whenever `ceil(balance / fee)` and
`ceil(balance / fee) × 17280` are below 2^32 (so neither the `as u32` cast
nor the `u32` product truncates), the retention computation yields
`ceil(balance / fee) × 17280` retention units and fails with
`InvalidAmount` exactly when that exceeds `max_ttl`; unconditionally, no
horizon above `max_ttl` is ever returned. -/
theorem retention_horizon (env : CallEnv) (fee amount : Nat) (hfee : 0 < fee) :
    RetentionSpec env fee amount := by
  constructor
  · intro l hl
    exact (calc_ledgers_ok hl).2
  · intro hd hm
    unfold calc_ledgers_to_live
    rw [if_neg (show ¬ fee = 0 by omega)]
    dsimp only
    rw [Nat.mod_eq_of_lt hd, Nat.mod_eq_of_lt hm]

/-- Witness for C7 as amended: fee 100, balance 100 — one day, horizon
17280, applied because it is below `max_ttl`. -/
theorem retention_horizon_witness :
    (0 : Nat) < 100 ∧ RetentionSpec envA 100 100 :=
  ⟨by decide, retention_horizon envA 100 100 (by decide)⟩

/-- C9.  A successful `config` stores the admin, fee, token and a zero
counter; any second `config` call then fails with `AlreadyInitialized`
(and, failing, mutates nothing). -/
theorem config_single_shot (s : ContractState) (cfg cfg2 : ContractConfig)
    (s1 : ContractState) (h : config s cfg = Except.ok s1) :
    ConfigSpec s cfg s1 cfg2 := by
  obtain ⟨-, ha, hf, ht, hl⟩ := config_ok_fields h
  refine ⟨ha, hf, ht, hl, ?_⟩
  have hI1 : isInitialized s1 = true := by
    unfold isInitialized
    rw [ha]
    rfl
  unfold config
  rw [if_pos hI1]

/-- Witness for C9: configuring the blank state once succeeds, configuring
again fails. -/
theorem config_single_shot_witness :
    config stEmpty cfgA = Except.ok cfgResA ∧ ConfigSpec stEmpty cfgA cfgResA cfgA :=
  ⟨by rfl, config_single_shot stEmpty cfgA cfgA cfgResA (by rfl)⟩

/-- C10.  `set_fee` stores any fee, including 0, with no bounds check; with
a stored fee of 0, `create_subscription` on otherwise valid inputs and
`deposit` on any existing record (nonzero amount) both reach the unguarded
division by zero in `calc_ledgers_to_live` and trap, instead of failing
with one of the documented error codes. -/
theorem zero_fee_trap (env : CallEnv) (s : ContractState)
    (p : SubscriptionInitParams) (sender id amount : Nat) (sub : Subscription)
    (hinit : isInitialized s = true) :
    ZeroFeeSpec env s p sender id amount sub := by
  refine ⟨?_, ?_, ?_, ?_⟩
  · intro f
    unfold set_fee
    cases hadm : s.admin with
    | none =>
      unfold isInitialized at hinit
      rw [hadm] at hinit
      exact absurd hinit (by simp)
    | some a => rfl
  · intro hz hhb hth1 hth2 hwh
    unfold create_subscription
    rw [if_pos hinit]
    simp only [calc_fee, hz]
    rw [if_neg (show ¬ amount < 0 * 2 by omega),
        if_neg (show ¬ p.heartbeat < MIN_HEARTBEAT by omega),
        if_neg (show ¬ (p.threshold = 0 ∨ p.threshold > 10000) by omega),
        if_neg (show ¬ p.webhook.length > MAX_WEBHOOK_SIZE by omega)]
    rfl
  · intro hz h0 hget
    unfold deposit
    rw [if_pos hinit, if_neg h0, hget]
    dsimp only
    simp only [calc_fee, hz]
    cases hst : sub.status
    · rfl
    · rw [if_neg (show ¬ amount < 0 by omega)]
      rfl
  · intro e
    simp

/-- Witness for C10: with the zero-fee state `stZ`, `set_fee` accepts 0,
creation with valid parameters traps, and a deposit of 50 into record 1
traps. -/
theorem zero_fee_trap_witness :
    isInitialized stZ = true ∧ ZeroFeeSpec envA stZ pA 2 1 50 subA :=
  ⟨by decide, zero_fee_trap envA stZ pA 2 1 50 subA (by decide)⟩

end Reflector
